import Mathlib

/-!
Shallow embedding of `topo_from_gml.py` (sdn-topology-translator).

The file models the topology translation and bring-up pipeline of the
script: validation of the GML path (`ZooTopo.__init__`), the build of the
switch/host/link command list (`ZooTopo._build_topology`), the post-start
configuration and exception/cleanup handling of `main()`.  Machine-level
concerns (actual OVS bridges, namespaces) are out of scope, as in the
spec; the embedding records the sequence of backend commands the script
issues and the control flow of its error handling.
-/

/- ### Decimal rendering of indices

Python renders the index `i` into the name `f's{i}'` in decimal.  We model
the decimal rendering with an explicit fuel recursion (mirroring the
digit-by-digit construction, most significant digit first) so that all
definitions evaluate by kernel reduction. -/

/-- Core decimal rendering: prepend the decimal digits of `n` to `acc`.
`fuel` bounds the recursion depth; `decRepr` always supplies enough. -/
def decReprCore : Nat → Nat → List Char → List Char
  | 0, _, acc => acc
  | fuel + 1, n, acc =>
    if n < 10 then Nat.digitChar n :: acc
    else decReprCore fuel (n / 10) (Nat.digitChar (n % 10) :: acc)

/-- Decimal digit string of `n`, most significant digit first, exactly the
character sequence Python's `str(n)` / f-string formatting produces. -/
def decRepr (n : Nat) : List Char :=
  decReprCore (n + 1) n []

/-- Value of a digit string read back as a decimal number (used to prove
that `decRepr` is injective). -/
def decVal (l : List Char) : Nat :=
  l.foldl (fun a c => 10 * a + (c.toNat - 48)) 0

/-- The switch name for index `i`: Python `f's{i}'` (line 76). -/
def switchName (i : Nat) : String :=
  String.mk ('s' :: decRepr i)

/-- Python `str.replace(a, b)` for one-character pattern and replacement:
every occurrence of the character `a` is replaced by `b`. -/
def pyReplace1 (s : String) (a b : Char) : String :=
  String.mk (s.data.map (fun c => if c = a then b else c))

/-- The host name for index `i`: Python `switch_name.replace('s', 'h')`
(line 94). -/
def hostName (i : Nat) : String :=
  pyReplace1 (switchName i) 's' 'h'

/-- Boolean check for the regex `^<lead>\d+$`: first character is `lead`,
followed by one or more decimal digits. -/
def nameMatches (lead : Char) (s : String) : Bool :=
  match s.data with
  | c :: ds => c == lead && !ds.isEmpty && ds.all Char.isDigit
  | [] => false

/- ### Lemmas about the decimal rendering -/

theorem digitChar_spec {m : Nat} (h : m < 10) :
    (Nat.digitChar m).isDigit = true ∧ (Nat.digitChar m).toNat = 48 + m ∧
      Nat.digitChar m ≠ 's' := by
  interval_cases m <;> exact ⟨rfl, rfl, by decide⟩

theorem decVal_append_digit (xs : List Char) (c : Char) :
    decVal (xs ++ [c]) = 10 * decVal xs + (c.toNat - 48) := by
  simp [decVal, List.foldl_append]

/-- Bundled correctness of `decReprCore`: with sufficient fuel it prepends
a nonempty, digits-only rendering of `n` whose decimal value is `n`. -/
theorem decReprCore_spec :
    ∀ (fuel n : Nat) (acc : List Char), n < 10 ^ (fuel + 1) →
      ∃ ds : List Char, decReprCore (fuel + 1) n acc = ds ++ acc ∧ ds ≠ [] ∧
        (∀ c ∈ ds, c.isDigit = true ∧ c ≠ 's') ∧ decVal ds = n := by
  intro fuel
  induction fuel with
  | zero =>
    intro n acc hn
    have h10 : n < 10 := by simpa using hn
    refine ⟨[Nat.digitChar n], ?_, by simp, ?_, ?_⟩
    · simp [decReprCore, h10]
    · intro c hc
      rcases List.mem_singleton.mp hc with rfl
      exact ⟨(digitChar_spec h10).1, (digitChar_spec h10).2.2⟩
    · have := (digitChar_spec h10).2.1
      simp [decVal, this]
  | succ fuel ih =>
    intro n acc hn
    by_cases h10 : n < 10
    · refine ⟨[Nat.digitChar n], ?_, by simp, ?_, ?_⟩
      · simp [decReprCore, h10]
      · intro c hc
        rcases List.mem_singleton.mp hc with rfl
        exact ⟨(digitChar_spec h10).1, (digitChar_spec h10).2.2⟩
      · have := (digitChar_spec h10).2.1
        simp [decVal, this]
    · have hstep : decReprCore (fuel + 1 + 1) n acc =
          decReprCore (fuel + 1) (n / 10) (Nat.digitChar (n % 10) :: acc) := by
        simp [decReprCore, h10]
      have hdiv : n / 10 < 10 ^ (fuel + 1) := by
        have : n < 10 * 10 ^ (fuel + 1) := by
          have := hn
          calc n < 10 ^ (fuel + 1 + 1) := hn
            _ = 10 * 10 ^ (fuel + 1) := by ring
        exact Nat.div_lt_of_lt_mul this
      obtain ⟨ds, hds, hne, hdig, hval⟩ :=
        ih (n / 10) (Nat.digitChar (n % 10) :: acc) hdiv
      have hmod : n % 10 < 10 := Nat.mod_lt _ (by norm_num)
      refine ⟨ds ++ [Nat.digitChar (n % 10)], ?_, by simp, ?_, ?_⟩
      · rw [hstep, hds]
        simp
      · intro c hc
        rcases List.mem_append.mp hc with h | h
        · exact hdig c h
        · rcases List.mem_singleton.mp h with rfl
          exact ⟨(digitChar_spec hmod).1, (digitChar_spec hmod).2.2⟩
      · rw [decVal_append_digit, hval, (digitChar_spec hmod).2.1]
        omega

/-- Correctness of `decRepr`: nonempty, digits only (never the character
`'s'`), and reading the digits back yields `n`. -/
theorem decRepr_spec (n : Nat) :
    decRepr n ≠ [] ∧ (∀ c ∈ decRepr n, c.isDigit = true ∧ c ≠ 's') ∧
      decVal (decRepr n) = n := by
  have hb : n < 10 ^ (n + 1) := by
    have h1 : n < 10 ^ n := Nat.lt_pow_self (by norm_num) n
    have h2 : (10 : Nat) ^ n ≤ 10 ^ (n + 1) :=
      Nat.pow_le_pow_right (by norm_num) (Nat.le_succ n)
    omega
  obtain ⟨ds, hds, hne, hdig, hval⟩ := decReprCore_spec n n [] hb
  have : decRepr n = ds := by simpa [decRepr] using hds
  rw [this]
  exact ⟨hne, hdig, hval⟩

theorem decRepr_inj {a b : Nat} (h : decRepr a = decRepr b) : a = b := by
  have ha := (decRepr_spec a).2.2
  have hb := (decRepr_spec b).2.2
  rw [h] at ha
  omega

theorem switchName_inj {a b : Nat} (h : switchName a = switchName b) : a = b := by
  have : ('s' :: decRepr a) = ('s' :: decRepr b) := by
    simpa [switchName] using congrArg String.data h
  exact decRepr_inj (List.cons.injEq .. ▸ this |>.2)

theorem hostName_data (i : Nat) : hostName i = String.mk ('h' :: decRepr i) := by
  have hmap : (decRepr i).map (fun c => if c = 's' then 'h' else c) = decRepr i := by
    have : (decRepr i).map (fun c => if c = 's' then 'h' else c) =
        (decRepr i).map id := by
      apply List.map_congr_left
      intro c hc
      have := ((decRepr_spec i).2.1 c hc).2
      simp [this]
    rw [this, List.map_id]
  simp [hostName, pyReplace1, switchName, hmap]

theorem hostName_inj {a b : Nat} (h : hostName a = hostName b) : a = b := by
  rw [hostName_data, hostName_data] at h
  have : ('h' :: decRepr a) = ('h' :: decRepr b) := congrArg String.data h
  exact decRepr_inj (List.cons.injEq .. ▸ this |>.2)

theorem switchName_ne_hostName (i j : Nat) : switchName i ≠ hostName j := by
  intro h
  rw [hostName_data] at h
  have : ('s' :: decRepr i) = ('h' :: decRepr j) := congrArg String.data h
  exact absurd (List.cons.injEq .. ▸ this |>.1) (by decide)

theorem switchName_matches (i : Nat) : nameMatches 's' (switchName i) = true := by
  obtain ⟨hne, hdig, -⟩ := decRepr_spec i
  cases hds : decRepr i with
  | nil => exact absurd hds hne
  | cons c cs =>
    have hc : c.isDigit = true := by
      refine (hdig c ?_).1
      rw [hds]; exact List.mem_cons_self _ _
    have hcs : ∀ x ∈ cs, x.isDigit = true := by
      intro x hx
      refine (hdig x ?_).1
      rw [hds]; exact List.mem_cons_of_mem _ hx
    simp [nameMatches, switchName, hds, List.all_eq_true, hc, hcs]
    exact hcs

theorem hostName_matches (i : Nat) : nameMatches 'h' (hostName i) = true := by
  obtain ⟨hne, hdig, -⟩ := decRepr_spec i
  rw [hostName_data]
  cases hds : decRepr i with
  | nil => exact absurd hds hne
  | cons c cs =>
    have hc : c.isDigit = true := by
      refine (hdig c ?_).1
      rw [hds]; exact List.mem_cons_self _ _
    have hcs : ∀ x ∈ cs, x.isDigit = true := by
      intro x hx
      refine (hdig x ?_).1
      rw [hds]; exact List.mem_cons_of_mem _ hx
    simp [nameMatches, hds, List.all_eq_true, hc, hcs]
    exact hcs

/- ### Graph and the topology build (`ZooTopo._build_topology`) -/

/-- The in-memory graph produced by `networkx.read_gml`: vertex labels in
iteration order and edges as (source, target) pairs.  `networkx`
guarantees that the node list has no duplicates and that every edge
endpoint is a node; theorems take those facts as hypotheses where they
matter. -/
structure Graph where
  nodes : List String
  edges : List (String × String)
deriving DecidableEq

/-- The switch classes the script mentions; only `OVSKernelSwitch` is ever
passed. -/
inductive SwitchClass
  | OVSKernelSwitch
deriving DecidableEq

/-- A backend topology command (`Topo.addSwitch` / `addHost` / `addLink`).
`failMode` is the optional `failMode=...` keyword argument of
`addSwitch`; `none` means the argument is not passed. -/
inductive Cmd
  | addSwitch (name : String) (cls : SwitchClass) (failMode : Option String)
  | addHost (name : String)
  | addLink (a b : String)
deriving DecidableEq

def Cmd.isAddSwitch : Cmd → Bool
  | .addSwitch .. => true
  | _ => false

def Cmd.isAddHost : Cmd → Bool
  | .addHost _ => true
  | _ => false

def Cmd.isAddLink : Cmd → Bool
  | .addLink .. => true
  | _ => false

/-- The `self.node_mapping` dictionary (lines 70-77): built by
`for i, node in enumerate(G.nodes())`, mapping each node label to
`f's{i}'`.  Node labels are unique in a `networkx` graph, so the
association list has distinct keys. -/
def nodeMapping (nodes : List String) : List (String × String) :=
  nodes.enum.map (fun p => (p.2, switchName p.1))

/-- The index relation underlying `node_mapping`: node label paired with
its `enumerate` index. -/
def nodeIndexList (nodes : List String) : List (String × Nat) :=
  nodes.enum.map (fun p => (p.2, p.1))

/-- Index lookup in the name map (the `i` of the `f's{i}'` that
`node_mapping` stores for a label). -/
def nameMapIndex (nodes : List String) (v : String) : Option Nat :=
  (nodeIndexList nodes).lookup v

/-- Dictionary access `self.node_mapping[v]` (lines 85-86, 93).  For the
graphs `networkx` produces every accessed key is present; the default is
never reached then. -/
def lookupSwitch (nodes : List String) (v : String) : String :=
  ((nodeMapping nodes).lookup v).getD ""

/-- The switch-creation loop (lines 74-80): one
`addSwitch(f's{i}', cls=OVSKernelSwitch)` per node, no `failMode`
argument. -/
def switchCmds (nodes : List String) : List Cmd :=
  nodes.enum.map (fun p => Cmd.addSwitch (switchName p.1) SwitchClass.OVSKernelSwitch none)

/-- The inter-switch-link loop (lines 84-88): one
`addLink(node_mapping[src], node_mapping[dst])` per edge. -/
def edgeCmds (g : Graph) : List Cmd :=
  g.edges.map (fun e => Cmd.addLink (lookupSwitch g.nodes e.1) (lookupSwitch g.nodes e.2))

/-- The host loop (lines 92-97): per node, `addHost` of the name obtained
by `switch_name.replace('s', 'h')`, immediately followed by the access
link to that switch. -/
def hostCmds (g : Graph) : List Cmd :=
  g.nodes.flatMap (fun v =>
    let s := lookupSwitch g.nodes v
    let h := pyReplace1 s 's' 'h'
    [Cmd.addHost h, Cmd.addLink h s])

/-- Python exception values that the script can raise or catch. -/
inductive PyError
  | valueError (msg : String)
  | fileNotFoundError (msg : String)
  | permissionError (msg : String)
  | runtimeError (msg : String)
deriving DecidableEq

/-- `str(e)` of an exception: its message. -/
def PyError.msg : PyError → String
  | .valueError m => m
  | .fileNotFoundError m => m
  | .permissionError m => m
  | .runtimeError m => m

/-- `ZooTopo._build_topology` (lines 53-102).  The `nx.read_gml` call is
external; its outcome is the `parse` argument.  The function returns the
backend commands emitted before the run ends, paired with the exception
raised (if any): a parse failure is re-raised as
`ValueError("Invalid GML file format: ...")` before anything is emitted,
an empty node set raises `ValueError("GML file contains no nodes")`
before anything is emitted, and otherwise the three loops run. -/
def buildRun (parse : Except String Graph) : List Cmd × Option PyError :=
  match parse with
  | .error m => ([], some (.valueError ("Invalid GML file format: " ++ m)))
  | .ok g =>
    if g.nodes.isEmpty then ([], some (.valueError "GML file contains no nodes"))
    else (switchCmds g.nodes ++ edgeCmds g ++ hostCmds g, none)

/-- The command list of a successful build. -/
def buildCmds (g : Graph) : List Cmd :=
  (buildRun (.ok g)).1

/-- Result of `os.path.exists` / `os.access(..., os.R_OK)` for the given
path. -/
structure FileInfo where
  pathExists : Bool
  pathReadable : Bool
deriving DecidableEq

/-- The validation in `ZooTopo.__init__` (lines 38-43): `FileNotFoundError`
when the path does not exist, else `PermissionError` when it is not
readable, else no error. -/
def validateFile (f : String) (fi : FileInfo) : Option PyError :=
  if !fi.pathExists then some (.fileNotFoundError ("GML file not found: " ++ f))
  else if !fi.pathReadable then some (.permissionError ("Cannot read GML file: " ++ f))
  else none

/-- `ZooTopo.__init__` (lines 27-51): `ValueError` when no path is given;
then validation; then `_build_topology`, any exception of which is
re-wrapped as `RuntimeError(f"Failed to build topology from {gml_file}:
{str(e)}")`. -/
def zooTopoInit (gmlFile : Option String) (fi : FileInfo)
    (parse : Except String Graph) : Except PyError (List Cmd) :=
  match gmlFile with
  | none => .error (.valueError "GML file path is required")
  | some f =>
    match validateFile f fi with
    | some e => .error e
    | none =>
      match buildRun parse with
      | (_, some e) =>
          .error (.runtimeError ("Failed to build topology from " ++ f ++ ": " ++ e.msg))
      | (cmds, none) => .ok cmds

/- ### `main()`: post-start actions and exception handling -/

/-- Actions `main` performs on the live network (lines 129-152): the
`net.start()` call, the two fixed sleeps, the per-switch
`ovs-vsctl set bridge <name> stp_enable=false` commands, the CLI.
`setIP` models the backend's `host.setIP(...)` capability; it is part of
the action vocabulary so that statements about IP assignment can be
made. -/
inductive NetCmd
  | startNet
  | sleepSec (n : Nat)
  | stpDisable (sw : String)
  | setIP (host ip : String)
  | runCLI
deriving DecidableEq

def NetCmd.isSetIP : NetCmd → Bool
  | .setIP .. => true
  | _ => false

/-- The ordered network actions of `main` after the `Mininet` object is
created (lines 130-152), for the given `net.switches` name list:
start, 2-second sleep, STP disable per switch, 1-second sleep, CLI. -/
def mainNetActions (switches : List String) : List NetCmd :=
  [NetCmd.startNet, NetCmd.sleepSec 2]
    ++ switches.map NetCmd.stpDisable
    ++ [NetCmd.sleepSec 1, NetCmd.runCLI]

/-- Exceptions as seen by `main`'s `except` chain (lines 154-180). -/
inductive PyExc
  | fileNotFound (msg : String)
  | permission (msg : String)
  | valueErr (msg : String)
  | runtimeErr (msg : String)
  | keyboardInterrupt
  | otherExc (msg : String)
deriving DecidableEq

/-- How an exception raised by `ZooTopo.__init__` is seen by `main`. -/
def PyError.toExc : PyError → PyExc
  | .valueError m => .valueErr m
  | .fileNotFoundError m => .fileNotFound m
  | .permissionError m => .permission m
  | .runtimeError m => .runtimeErr m

/-- Which `except` clause of `main` handles each exception. -/
inductive Branch
  | fileBranch
  | permBranch
  | valueBranch
  | runtimeBranch
  | interruptBranch
  | genericBranch
deriving DecidableEq

/-- Dispatch of `main`'s `except` chain (lines 154-180): the handlers for
`FileNotFoundError`, `PermissionError`, `ValueError`, `RuntimeError`,
`KeyboardInterrupt` and bare `Exception`, in order. -/
def handledBy : PyExc → Branch
  | .fileNotFound _ => .fileBranch
  | .permission _ => .permBranch
  | .valueErr _ => .valueBranch
  | .runtimeErr _ => .runtimeBranch
  | .keyboardInterrupt => .interruptBranch
  | .otherExc _ => .genericBranch

/-- The `sys.exit` code each handler sets: every handler calls
`sys.exit(1)` except the `KeyboardInterrupt` one, which only prints
(lines 154-180). -/
def handlerExit : PyExc → Option Nat
  | .fileNotFound _ => some 1
  | .permission _ => some 1
  | .valueErr _ => some 1
  | .runtimeErr _ => some 1
  | .keyboardInterrupt => none
  | .otherExc _ => some 1

/-- The `finally` block (lines 182-190): `net.stop()` is attempted exactly
when `'net' in locals()`; an exception from the cleanup is caught and
turned into a warning.  Returns (stop attempted, warning printed). -/
def finallyCleanup (netCreated : Bool) (stopError : Option String) :
    Bool × Option String :=
  if netCreated then
    match stopError with
    | none => (true, none)
    | some m => (true, some ("Warning during cleanup: " ++ m))
  else (false, none)

/-- Observable outcome of `main`'s try/except/finally. -/
structure MainOutcome where
  exitCode : Nat
  stopAttempted : Bool
  cleanupWarning : Option String
deriving DecidableEq

/-- The try/except/finally of `main` (lines 118-190).  `bodyExc` is the
exception escaping the `try` body (`none` = the CLI returned normally),
`netCreated` records whether `net = Mininet(...)` had been executed, and
`stopError` is the failure `net.stop()` would raise.  The pending
`sys.exit` code survives the `finally` block; falling off the end of
`main` exits the process with code 0. -/
def mainFinish (bodyExc : Option PyExc) (netCreated : Bool)
    (stopError : Option String) : MainOutcome :=
  let pending : Option Nat :=
    match bodyExc with
    | none => none
    | some e => handlerExit e
  let fin := finallyCleanup netCreated stopError
  { exitCode := pending.getD 0, stopAttempted := fin.1, cleanupWarning := fin.2 }

/- ### Lemmas about the name map and the build -/

theorem lookup_enumFrom_get (t : List String) :
    ∀ (k i : Nat) (hi : i < t.length), t.Nodup →
      ((t.enumFrom k).map (fun p => (p.2, switchName p.1))).lookup (t.get ⟨i, hi⟩) =
        some (switchName (k + i)) := by
  induction t with
  | nil => intro k i hi _; exact absurd hi (by simp)
  | cons u t ih =>
    intro k i hi hnd
    cases i with
    | zero =>
      simp [List.enumFrom_cons, List.lookup]
    | succ i =>
      have hut : u ∉ t := (List.nodup_cons.mp hnd).1
      have hit : i < t.length := by simpa using hi
      have hgt : (u :: t).get ⟨i + 1, hi⟩ = t.get ⟨i, hit⟩ := List.get_cons_succ
      have hne : t.get ⟨i, hit⟩ ≠ u := by
        intro h
        exact hut (h ▸ List.get_mem t i hit)
      rw [hgt]
      simp only [List.enumFrom_cons, List.map_cons, List.lookup,
        beq_eq_false_iff_ne.mpr hne]
      rw [ih (k + 1) i hit (List.nodup_cons.mp hnd).2]
      congr 2
      omega

theorem lookupSwitch_get (nodes : List String) (hnd : nodes.Nodup) (i : Nat)
    (hi : i < nodes.length) :
    lookupSwitch nodes (nodes.get ⟨i, hi⟩) = switchName i := by
  unfold lookupSwitch nodeMapping
  rw [show nodes.enum = nodes.enumFrom 0 from rfl]
  rw [lookup_enumFrom_get nodes 0 i hi hnd]
  simp

theorem lookup_enumFrom_map (t : List String) :
    ∀ (k : Nat) (v : String),
      ((t.enumFrom k).map (fun p => (p.2, switchName p.1))).lookup v =
        (((t.enumFrom k).map (fun p => (p.2, p.1))).lookup v).map switchName := by
  induction t with
  | nil => intro k v; simp [List.lookup]
  | cons u t ih =>
    intro k v
    by_cases h : v = u
    · subst h
      simp [List.enumFrom_cons, List.lookup]
    · simp only [List.enumFrom_cons, List.map_cons, List.lookup,
        beq_eq_false_iff_ne.mpr h]
      exact ih (k + 1) v

theorem nameMapIndex_isSome_of_mem (t : List String) :
    ∀ (k : Nat) (v : String), v ∈ t →
      ∃ i, ((t.enumFrom k).map (fun p => (p.2, p.1))).lookup v = some i := by
  induction t with
  | nil => intro _ _ h; exact absurd h (by simp)
  | cons u t ih =>
    intro k v hv
    by_cases h : v = u
    · subst h
      exact ⟨k, by simp [List.enumFrom_cons, List.lookup]⟩
    · have hvt : v ∈ t := by
        rcases List.mem_cons.mp hv with h1 | h1
        · exact absurd h1 h
        · exact h1
      obtain ⟨i, hi⟩ := ih (k + 1) v hvt
      refine ⟨i, ?_⟩
      simp only [List.enumFrom_cons, List.map_cons, List.lookup,
        beq_eq_false_iff_ne.mpr h]
      exact hi

theorem lookupSwitch_of_mem (nodes : List String) (v : String) (hv : v ∈ nodes) :
    ∃ i, lookupSwitch nodes v = switchName i ∧ nameMapIndex nodes v = some i := by
  obtain ⟨i, hi⟩ := nameMapIndex_isSome_of_mem nodes 0 v hv
  refine ⟨i, ?_, hi⟩
  unfold lookupSwitch nodeMapping
  rw [show nodes.enum = nodes.enumFrom 0 from rfl, lookup_enumFrom_map]
  rw [hi]
  simp

theorem mem_enumIndex (t : List String) :
    ∀ (k : Nat) (v : String) (i : Nat),
      ((v, i) ∈ (t.enumFrom k).map (fun p => (p.2, p.1))) ↔
        ∃ j, t.get? j = some v ∧ i = k + j := by
  induction t with
  | nil => intro k v i; simp
  | cons u t ih =>
    intro k v i
    simp only [List.enumFrom_cons, List.map_cons, List.mem_cons]
    constructor
    · rintro (h | h)
      · obtain ⟨h1, h2⟩ := Prod.mk.injEq .. ▸ h
        exact ⟨0, by simp [h1], by omega⟩
      · obtain ⟨j, hj, hij⟩ := (ih (k + 1) v i).mp h
        exact ⟨j + 1, by simpa using hj, by omega⟩
    · rintro ⟨j, hj, rfl⟩
      cases j with
      | zero =>
        left
        have : u = v := by simpa using hj
        simp [this]
      | succ j =>
        right
        refine (ih (k + 1) v _).mpr ⟨j, by simpa using hj, by omega⟩

/-- (v, i) is in the index list exactly when v is the i-th node. -/
theorem mem_nodeIndexList (nodes : List String) (v : String) (i : Nat) :
    (v, i) ∈ nodeIndexList nodes ↔ nodes.get? i = some v := by
  unfold nodeIndexList
  rw [show nodes.enum = nodes.enumFrom 0 from rfl, mem_enumIndex]
  constructor
  · rintro ⟨j, hj, rfl⟩; simpa using hj
  · intro h; exact ⟨i, h, by omega⟩

theorem switchCmds_eq (nodes : List String) :
    switchCmds nodes = (List.range nodes.length).map
      (fun i => Cmd.addSwitch (switchName i) SwitchClass.OVSKernelSwitch none) := by
  unfold switchCmds
  rw [← List.enum_map_fst nodes, List.map_map]
  rfl

theorem flatMapShift (f : String → List Cmd) (blk : Nat → List Cmd) :
    ∀ (rest : List String) (k : Nat),
      (∀ (i : Nat) (hi : i < rest.length), f (rest.get ⟨i, hi⟩) = blk (k + i)) →
      rest.flatMap f = (List.range' k rest.length).flatMap blk := by
  intro rest
  induction rest with
  | nil => intro k _; simp
  | cons u t ih =>
    intro k h
    have h0 : f u = blk k := by
      have := h 0 (by simp)
      simpa using this
    have hrec : t.flatMap f = (List.range' (k + 1) t.length).flatMap blk := by
      refine ih (k + 1) ?_
      intro i hi
      have := h (i + 1) (by simpa using Nat.succ_lt_succ hi)
      rw [show (u :: t).get ⟨i + 1, by simpa using Nat.succ_lt_succ hi⟩ =
        t.get ⟨i, hi⟩ from List.get_cons_succ] at this
      rw [this]
      congr 1
      omega
    simp only [List.length_cons]
    rw [List.flatMap_cons, List.range'_succ, List.flatMap_cons, h0, hrec]

theorem hostCmds_eq (g : Graph) (hnd : g.nodes.Nodup) :
    hostCmds g = (List.range g.nodes.length).flatMap
      (fun i => [Cmd.addHost (hostName i), Cmd.addLink (hostName i) (switchName i)]) := by
  unfold hostCmds
  rw [List.range_eq_range']
  apply flatMapShift
  intro i hi
  have hl := lookupSwitch_get g.nodes hnd i hi
  simp only [hl, Nat.zero_add]
  rfl

theorem buildCmds_eq (g : Graph) (hne : g.nodes ≠ []) (hnd : g.nodes.Nodup) :
    buildCmds g =
      (List.range g.nodes.length).map
        (fun i => Cmd.addSwitch (switchName i) SwitchClass.OVSKernelSwitch none)
      ++ g.edges.map
        (fun e => Cmd.addLink (lookupSwitch g.nodes e.1) (lookupSwitch g.nodes e.2))
      ++ (List.range g.nodes.length).flatMap
        (fun i => [Cmd.addHost (hostName i), Cmd.addLink (hostName i) (switchName i)]) := by
  have hemp : g.nodes.isEmpty = false := by
    cases hn : g.nodes with
    | nil => exact absurd hn hne
    | cons a t => simp [hn]
  unfold buildCmds buildRun
  simp only [hemp, Bool.false_eq_true, if_false]
  rw [switchCmds_eq, hostCmds_eq g hnd]
  rfl

/-- Switch identifiers appearing in `addSwitch` commands, in order. -/
def switchNames (cmds : List Cmd) : List String :=
  cmds.filterMap (fun c =>
    match c with
    | Cmd.addSwitch nm _ _ => some nm
    | _ => none)

/-- Host identifiers appearing in `addHost` commands, in order. -/
def hostNames (cmds : List Cmd) : List String :=
  cmds.filterMap (fun c =>
    match c with
    | Cmd.addHost nm => some nm
    | _ => none)

theorem switchNames_hostBlocks (l : List Nat) :
    switchNames (l.flatMap
      (fun i => [Cmd.addHost (hostName i), Cmd.addLink (hostName i) (switchName i)])) = [] := by
  induction l with
  | nil => rfl
  | cons a t ih =>
    rw [List.flatMap_cons]
    unfold switchNames at ih ⊢
    rw [List.filterMap_append, ih]
    rfl

theorem hostNames_hostBlocks (l : List Nat) :
    hostNames (l.flatMap
      (fun i => [Cmd.addHost (hostName i), Cmd.addLink (hostName i) (switchName i)])) =
      l.map hostName := by
  induction l with
  | nil => rfl
  | cons a t ih =>
    rw [List.flatMap_cons]
    unfold hostNames at ih ⊢
    rw [List.filterMap_append, ih]
    rfl

theorem switchNames_build (g : Graph) (hne : g.nodes ≠ []) (hnd : g.nodes.Nodup) :
    switchNames (buildCmds g) = (List.range g.nodes.length).map switchName := by
  rw [buildCmds_eq g hne hnd]
  unfold switchNames
  rw [List.filterMap_append, List.filterMap_append]
  rw [List.filterMap_map, List.filterMap_map]
  have h1 : List.filterMap
      ((fun c => match c with
        | Cmd.addSwitch nm _ _ => some nm
        | _ => none) ∘
       (fun i => Cmd.addSwitch (switchName i) SwitchClass.OVSKernelSwitch none))
      (List.range g.nodes.length) = (List.range g.nodes.length).map switchName := by
    rw [show ((fun c => match c with
        | Cmd.addSwitch nm _ _ => some nm
        | _ => none) ∘
       (fun i => Cmd.addSwitch (switchName i) SwitchClass.OVSKernelSwitch none)) =
       (fun i => some (switchName i)) from rfl]
    exact List.filterMap_eq_map switchName ▸ rfl
  have h2 : List.filterMap
      ((fun c => match c with
        | Cmd.addSwitch nm _ _ => some nm
        | _ => none) ∘
       (fun e => Cmd.addLink (lookupSwitch g.nodes e.1) (lookupSwitch g.nodes e.2)))
      g.edges = [] := by
    rw [List.filterMap_eq_nil_iff]
    intro e _
    rfl
  rw [h1, h2]
  have h3 := switchNames_hostBlocks (List.range g.nodes.length)
  unfold switchNames at h3
  rw [h3]
  simp

theorem hostNames_build (g : Graph) (hne : g.nodes ≠ []) (hnd : g.nodes.Nodup) :
    hostNames (buildCmds g) = (List.range g.nodes.length).map hostName := by
  rw [buildCmds_eq g hne hnd]
  unfold hostNames
  rw [List.filterMap_append, List.filterMap_append]
  rw [List.filterMap_map, List.filterMap_map]
  have h1 : List.filterMap
      ((fun c => match c with
        | Cmd.addHost nm => some nm
        | _ => none) ∘
       (fun i => Cmd.addSwitch (switchName i) SwitchClass.OVSKernelSwitch none))
      (List.range g.nodes.length) = [] := by
    rw [List.filterMap_eq_nil_iff]
    intro e _
    rfl
  have h2 : List.filterMap
      ((fun c => match c with
        | Cmd.addHost nm => some nm
        | _ => none) ∘
       (fun e => Cmd.addLink (lookupSwitch g.nodes e.1) (lookupSwitch g.nodes e.2)))
      g.edges = [] := by
    rw [List.filterMap_eq_nil_iff]
    intro e _
    rfl
  rw [h1, h2]
  have h3 := hostNames_hostBlocks (List.range g.nodes.length)
  unfold hostNames at h3
  rw [h3]
  simp

theorem countP_flatMap_const {α : Type} (blk : α → List Cmd) (p : Cmd → Bool)
    (c : Nat) (h : ∀ x, (blk x).countP p = c) :
    ∀ l : List α, (l.flatMap blk).countP p = c * l.length := by
  intro l
  induction l with
  | nil => simp
  | cons a t ih =>
    rw [List.flatMap_cons, List.countP_append, h a, ih]
    simp [Nat.mul_succ]
    omega

/-- `main` never issues a `setIP` action: the post-start configuration is
start, sleep, per-switch STP disable, sleep, CLI. -/
theorem setIP_not_mem (switches : List String) (h ip : String) :
    NetCmd.setIP h ip ∉ mainNetActions switches := by
  intro hmem
  unfold mainNetActions at hmem
  rcases List.mem_append.mp hmem with h1 | h1
  · rcases List.mem_append.mp h1 with h2 | h2
    · simp at h2
    · obtain ⟨s, -, hs⟩ := List.mem_map.mp h2
      exact NetCmd.noConfusion hs
  · simp at h1

/- ### Claim theorems -/

/-- The triangle scenario of the spec: three vertices, three edges. -/
def triGraph : Graph :=
  Graph.mk ["A", "B", "C"] [("A", "B"), ("B", "C"), ("C", "A")]

/-- C1: the claim says every `addSwitch` call passes the kernel-switch
class *and* `failMode="standalone"`.  On the code, every `addSwitch`
command carries the kernel-switch class but **no** `failMode` argument at
all (line 79 removed it), so the standalone configuration the spec calls
mandatory is never requested. -/
theorem claim1_addSwitch_no_failMode (g : Graph) (nm : String)
    (cls : SwitchClass) (fm : Option String)
    (h : Cmd.addSwitch nm cls fm ∈ buildCmds g) :
    cls = SwitchClass.OVSKernelSwitch ∧ fm = none := by
  unfold buildCmds buildRun at h
  by_cases he : g.nodes.isEmpty
  · simp [he] at h
  · simp only [he, Bool.false_eq_true, if_false] at h
    rcases List.mem_append.mp h with h1 | h1
    · rcases List.mem_append.mp h1 with h2 | h2
      · obtain ⟨p, -, hp⟩ := List.mem_map.mp h2
        obtain ⟨-, hcls, hfm⟩ := Cmd.addSwitch.inj hp
        exact ⟨hcls.symm, hfm.symm⟩
      · obtain ⟨e, -, hp⟩ := List.mem_map.mp h2
        exact Cmd.noConfusion hp
    · obtain ⟨v, -, hv⟩ := List.mem_flatMap.mp h1
      simp at hv

theorem claim1_witness :
    Cmd.addSwitch (switchName 0) SwitchClass.OVSKernelSwitch none ∈
        buildCmds (Graph.mk ["A"] []) ∧
      SwitchClass.OVSKernelSwitch = SwitchClass.OVSKernelSwitch ∧
      (none : Option String) = none :=
  ⟨by decide, claim1_addSwitch_no_failMode (Graph.mk ["A"] []) (switchName 0)
    SwitchClass.OVSKernelSwitch none (by decide)⟩

/-- C2, counterexample: on the single-vertex graph, the post-start actions
of `main` never assign host `h0` the address `10.0.0.1/24` (nor any other
address): `main` contains no IP-assignment step at all. -/
theorem claim2_counterexample :
    NetCmd.setIP (hostName 0) "10.0.0.1/24" ∉
      mainNetActions (switchNames (buildCmds (Graph.mk ["A"] []))) := by
  decide

/-- C2, amended: after the network is started and STP has been disabled,
no host IP assignment is performed before the CLI is handed control; the
script issues no `setIP` action anywhere, leaving host addressing to the
emulator's defaults. -/
theorem claim2_amended_no_ip_assignment (switches : List String) :
    (mainNetActions switches).countP NetCmd.isSetIP = 0 := by
  rw [List.countP_eq_zero]
  intro a ha
  cases a with
  | setIP h ip => exact absurd ha (setIP_not_mem switches h ip)
  | startNet => simp [NetCmd.isSetIP]
  | sleepSec n => simp [NetCmd.isSetIP]
  | stpDisable s => simp [NetCmd.isSetIP]
  | runCLI => simp [NetCmd.isSetIP]

/-- C3: on every exit path of `main`, `stop()` is attempted in the
`finally` block exactly when the `Mininet` object was created; the exit
code is 0 on a clean CLI return and on `KeyboardInterrupt`, 1 on every
other caught exception; and a failing `net.stop()` never changes the exit
code. -/
theorem claim3_exit_paths (b : Option PyExc) (nc : Bool) (se : Option String) :
    (mainFinish b nc se).stopAttempted = nc ∧
    (b = none → (mainFinish b nc se).exitCode = 0) ∧
    (b = some PyExc.keyboardInterrupt → (mainFinish b nc se).exitCode = 0) ∧
    (∀ e, b = some e → e ≠ PyExc.keyboardInterrupt →
      (mainFinish b nc se).exitCode = 1) ∧
    (mainFinish b nc se).exitCode = (mainFinish b nc none).exitCode := by
  refine ⟨?_, ?_, ?_, ?_, ?_⟩
  · cases nc <;> cases se <;> simp [mainFinish, finallyCleanup]
  · rintro rfl
    simp [mainFinish]
  · rintro rfl
    simp [mainFinish, handlerExit]
  · rintro e rfl hne
    cases e <;> first
      | exact absurd rfl hne
      | rfl
  · cases b with
    | none => rfl
    | some e => rfl

theorem claim3_witness :
    (mainFinish (some (PyExc.runtimeErr "boom")) true (some "stop failed")).exitCode
      = 1 :=
  (claim3_exit_paths (some (PyExc.runtimeErr "boom")) true
    (some "stop failed")).2.2.2.1 (PyExc.runtimeErr "boom") rfl (by decide)

/-- C4, count law: a successful build emits |V| `addSwitch` commands,
|V| `addHost` commands and |E| + |V| `addLink` commands. -/
theorem claim4_count_law (g : Graph) (hne : g.nodes ≠ []) (hnd : g.nodes.Nodup) :
    (buildCmds g).countP Cmd.isAddSwitch = g.nodes.length ∧
    (buildCmds g).countP Cmd.isAddHost = g.nodes.length ∧
    (buildCmds g).countP Cmd.isAddLink = g.edges.length + g.nodes.length := by
  rw [buildCmds_eq g hne hnd]
  have hsw := countP_flatMap_const
    (fun i => [Cmd.addHost (hostName i), Cmd.addLink (hostName i) (switchName i)])
    Cmd.isAddSwitch 0 (fun x => rfl) (List.range g.nodes.length)
  have hho := countP_flatMap_const
    (fun i => [Cmd.addHost (hostName i), Cmd.addLink (hostName i) (switchName i)])
    Cmd.isAddHost 1 (fun x => rfl) (List.range g.nodes.length)
  have hli := countP_flatMap_const
    (fun i => [Cmd.addHost (hostName i), Cmd.addLink (hostName i) (switchName i)])
    Cmd.isAddLink 1 (fun x => rfl) (List.range g.nodes.length)
  simp only [List.countP_append, List.countP_map, hsw, hho, hli, List.length_range]
  refine ⟨?_, ?_, ?_⟩
  · have h1 : (List.range g.nodes.length).countP
        (Cmd.isAddSwitch ∘ fun i =>
          Cmd.addSwitch (switchName i) SwitchClass.OVSKernelSwitch none) =
        (List.range g.nodes.length).length :=
      List.countP_eq_length.mpr (fun a _ => rfl)
    have h2 : g.edges.countP
        (Cmd.isAddSwitch ∘ fun e =>
          Cmd.addLink (lookupSwitch g.nodes e.1) (lookupSwitch g.nodes e.2)) = 0 :=
      List.countP_eq_zero.mpr (fun a _ h => Bool.noConfusion h)
    rw [h1, h2, List.length_range]
    omega
  · have h1 : (List.range g.nodes.length).countP
        (Cmd.isAddHost ∘ fun i =>
          Cmd.addSwitch (switchName i) SwitchClass.OVSKernelSwitch none) = 0 :=
      List.countP_eq_zero.mpr (fun a _ h => Bool.noConfusion h)
    have h2 : g.edges.countP
        (Cmd.isAddHost ∘ fun e =>
          Cmd.addLink (lookupSwitch g.nodes e.1) (lookupSwitch g.nodes e.2)) = 0 :=
      List.countP_eq_zero.mpr (fun a _ h => Bool.noConfusion h)
    rw [h1, h2]
    omega
  · have h1 : (List.range g.nodes.length).countP
        (Cmd.isAddLink ∘ fun i =>
          Cmd.addSwitch (switchName i) SwitchClass.OVSKernelSwitch none) = 0 :=
      List.countP_eq_zero.mpr (fun a _ h => Bool.noConfusion h)
    have h2 : g.edges.countP
        (Cmd.isAddLink ∘ fun e =>
          Cmd.addLink (lookupSwitch g.nodes e.1) (lookupSwitch g.nodes e.2)) =
        g.edges.length :=
      List.countP_eq_length.mpr (fun a _ => rfl)
    rw [h1, h2]
    omega

theorem claim4_witness :
    (buildCmds triGraph).countP Cmd.isAddSwitch = 3 ∧
    (buildCmds triGraph).countP Cmd.isAddHost = 3 ∧
    (buildCmds triGraph).countP Cmd.isAddLink = 3 + 3 :=
  claim4_count_law triGraph (by decide) (by decide)

/-- C5, bijection law: the node→index assignment of the name mapper pairs
the vertex list (in loader order, unsorted) with exactly the indices
0..|V|-1, each vertex getting exactly one index and each index exactly one
vertex; it is the index component of the `node_mapping` dictionary, and as
a pure function of the loader's node order it is the same on every run
over the same file. -/
theorem claim5_bijection_law (nodes : List String) (hnd : nodes.Nodup) :
    (nodeIndexList nodes).map Prod.fst = nodes ∧
    (nodeIndexList nodes).map Prod.snd = List.range nodes.length ∧
    (∀ v ∈ nodes, ∃! i, (v, i) ∈ nodeIndexList nodes) ∧
    (∀ i, i < nodes.length → ∃! v, (v, i) ∈ nodeIndexList nodes) ∧
    (∀ v i, (v, i) ∈ nodeIndexList nodes → v ∈ nodes ∧ i < nodes.length) ∧
    nodeMapping nodes = (nodeIndexList nodes).map (fun p => (p.1, switchName p.2)) := by
  refine ⟨?_, ?_, ?_, ?_, ?_, ?_⟩
  · unfold nodeIndexList
    rw [List.map_map]
    exact List.enum_map_snd nodes
  · unfold nodeIndexList
    rw [List.map_map]
    exact List.enum_map_fst nodes
  · intro v hv
    obtain ⟨j, hj⟩ := List.mem_iff_get?.mp hv
    refine ⟨j, (mem_nodeIndexList nodes v j).mpr hj, ?_⟩
    intro k hk
    have hk2 := (mem_nodeIndexList nodes v k).mp hk
    obtain ⟨hlt, -⟩ := List.get?_eq_some.mp hk2
    have hk3 : nodes[k]? = nodes[j]? := by
      rw [← List.get?_eq_getElem?, ← List.get?_eq_getElem?]
      exact hk2.trans hj.symm
    exact List.getElem?_inj hlt hnd hk3
  · intro i hi
    refine ⟨nodes.get ⟨i, hi⟩,
      (mem_nodeIndexList nodes _ i).mpr (List.get?_eq_get hi), ?_⟩
    intro w hw
    have hw2 := (mem_nodeIndexList nodes w i).mp hw
    rw [List.get?_eq_get hi] at hw2
    exact (Option.some.inj hw2).symm
  · intro v i h
    have h2 := (mem_nodeIndexList nodes v i).mp h
    obtain ⟨hlt, -⟩ := List.get?_eq_some.mp h2
    exact ⟨List.get?_mem h2, hlt⟩
  · unfold nodeMapping nodeIndexList
    rw [List.map_map]
    rfl

theorem claim5_witness :
    (nodeIndexList ["A", "B"]).map Prod.fst = ["A", "B"] :=
  (claim5_bijection_law ["A", "B"] (by decide)).1

/-- C6, naming law: every emitted switch identifier matches `^s\d+$` and
every emitted host identifier matches `^h\d+$`; the switch-name list and
the host-name list are each duplicate-free and mutually disjoint; and for
every index i the host name is derived from the switch name by the
`replace('s','h')` rule and the pair is joined by an access link. -/
theorem claim6_naming_law (g : Graph) (hne : g.nodes ≠ []) (hnd : g.nodes.Nodup) :
    (∀ nm cls fm, Cmd.addSwitch nm cls fm ∈ buildCmds g →
      nameMatches 's' nm = true) ∧
    (∀ nm, Cmd.addHost nm ∈ buildCmds g → nameMatches 'h' nm = true) ∧
    (switchNames (buildCmds g)).Nodup ∧
    (hostNames (buildCmds g)).Nodup ∧
    (∀ s ∈ switchNames (buildCmds g), s ∉ hostNames (buildCmds g)) ∧
    (∀ i, i < g.nodes.length →
      hostName i = pyReplace1 (switchName i) 's' 'h' ∧
      Cmd.addHost (hostName i) ∈ buildCmds g ∧
      Cmd.addLink (hostName i) (switchName i) ∈ buildCmds g) := by
  have hbe := buildCmds_eq g hne hnd
  refine ⟨?_, ?_, ?_, ?_, ?_, ?_⟩
  · intro nm cls fm h
    rw [hbe] at h
    rcases List.mem_append.mp h with h1 | h1
    · rcases List.mem_append.mp h1 with h2 | h2
      · obtain ⟨i, -, hp⟩ := List.mem_map.mp h2
        obtain ⟨hnm, -, -⟩ := Cmd.addSwitch.inj hp
        rw [← hnm]
        exact switchName_matches i
      · obtain ⟨e, -, hp⟩ := List.mem_map.mp h2
        exact Cmd.noConfusion hp
    · obtain ⟨i, -, hv⟩ := List.mem_flatMap.mp h1
      simp at hv
  · intro nm h
    rw [hbe] at h
    rcases List.mem_append.mp h with h1 | h1
    · rcases List.mem_append.mp h1 with h2 | h2
      · obtain ⟨i, -, hp⟩ := List.mem_map.mp h2
        exact Cmd.noConfusion hp
      · obtain ⟨e, -, hp⟩ := List.mem_map.mp h2
        exact Cmd.noConfusion hp
    · obtain ⟨i, -, hv⟩ := List.mem_flatMap.mp h1
      simp only [List.mem_cons, List.mem_singleton] at hv
      rcases hv with hv | hv | hv
      · rw [Cmd.addHost.inj hv]
        exact hostName_matches i
      · exact Cmd.noConfusion hv
      · exact absurd hv (List.not_mem_nil _)
  · rw [switchNames_build g hne hnd]
    exact List.Nodup.map (fun a b h => switchName_inj h) (List.nodup_range _)
  · rw [hostNames_build g hne hnd]
    exact List.Nodup.map (fun a b h => hostName_inj h) (List.nodup_range _)
  · intro s hs hh
    rw [switchNames_build g hne hnd] at hs
    rw [hostNames_build g hne hnd] at hh
    obtain ⟨i, -, hi⟩ := List.mem_map.mp hs
    obtain ⟨j, -, hj⟩ := List.mem_map.mp hh
    exact switchName_ne_hostName i j (hi.trans hj.symm)
  · intro i hi
    refine ⟨rfl, ?_, ?_⟩
    · rw [hbe]
      refine List.mem_append.mpr (Or.inr ?_)
      refine List.mem_flatMap.mpr ⟨i, List.mem_range.mpr hi, ?_⟩
      simp
    · rw [hbe]
      refine List.mem_append.mpr (Or.inr ?_)
      refine List.mem_flatMap.mpr ⟨i, List.mem_range.mpr hi, ?_⟩
      simp

theorem claim6_witness :
    (switchNames (buildCmds triGraph)).Nodup :=
  (claim6_naming_law triGraph (by decide) (by decide)).2.2.1

/-- C7, ordering: the build emits all switch commands first, then one link
command per edge (each between two switch identifiers), then per vertex an
`addHost` immediately followed by its access link; and in the post-start
configuration an STP-disable command is issued for every switch of the
net, while no position of the action list ever carries a host-IP
assignment after (or before) an STP disablement — the STP-before-IP order
holds at every pair of positions. -/
theorem claim7_ordering (g : Graph) (hne : g.nodes ≠ []) (hnd : g.nodes.Nodup)
    (hed : ∀ e ∈ g.edges, e.1 ∈ g.nodes ∧ e.2 ∈ g.nodes) :
    (∃ A B C2,
      buildCmds g = A ++ B ++ C2 ∧
      (∀ c ∈ A, c.isAddSwitch = true) ∧
      A.length = g.nodes.length ∧
      (∀ c ∈ B, ∃ i j, c = Cmd.addLink (switchName i) (switchName j)) ∧
      B.length = g.edges.length ∧
      C2 = (List.range g.nodes.length).flatMap
        (fun i => [Cmd.addHost (hostName i), Cmd.addLink (hostName i) (switchName i)])) ∧
    (∀ s ∈ switchNames (buildCmds g),
      NetCmd.stpDisable s ∈ mainNetActions (switchNames (buildCmds g))) ∧
    (∀ i j s h ip,
      (mainNetActions (switchNames (buildCmds g))).get? i =
        some (NetCmd.stpDisable s) →
      (mainNetActions (switchNames (buildCmds g))).get? j =
        some (NetCmd.setIP h ip) →
      i < j) := by
  refine ⟨?_, ?_, ?_⟩
  · refine ⟨_, _, _, buildCmds_eq g hne hnd, ?_, ?_, ?_, ?_, rfl⟩
    · intro c hc
      obtain ⟨i, -, hp⟩ := List.mem_map.mp hc
      rw [← hp]
      rfl
    · rw [List.length_map, List.length_range]
    · intro c hc
      obtain ⟨e, he, hp⟩ := List.mem_map.mp hc
      obtain ⟨h1, h2⟩ := hed e he
      obtain ⟨i, hi, -⟩ := lookupSwitch_of_mem g.nodes e.1 h1
      obtain ⟨j, hj, -⟩ := lookupSwitch_of_mem g.nodes e.2 h2
      refine ⟨i, j, ?_⟩
      rw [← hp, hi, hj]
    · rw [List.length_map]
  · intro s hs
    unfold mainNetActions
    refine List.mem_append.mpr (Or.inl (List.mem_append.mpr (Or.inr ?_)))
    exact List.mem_map.mpr ⟨s, hs, rfl⟩
  · intro i j s h ip hi hj
    exact absurd (List.get?_mem hj) (setIP_not_mem _ h ip)

theorem claim7_witness :
    NetCmd.stpDisable (switchName 0) ∈
      mainNetActions (switchNames (buildCmds triGraph)) :=
  (claim7_ordering triGraph (by decide) (by decide) (by decide)).2.1
    (switchName 0) (by decide)

/-- C8: the validation step reports the file-missing error exactly when
the path does not exist, the not-readable error exactly when it exists but
is not readable; and when validation fails, the init result is that error
and is independent of whatever the GML parse would have produced — the
loader is never consulted. -/
theorem claim8_validate (f : String) (fi : FileInfo) (p q : Except String Graph) :
    ((∃ m, validateFile f fi = some (PyError.fileNotFoundError m)) ↔
      fi.pathExists = false) ∧
    ((∃ m, validateFile f fi = some (PyError.permissionError m)) ↔
      (fi.pathExists = true ∧ fi.pathReadable = false)) ∧
    (validateFile f fi = none ↔
      (fi.pathExists = true ∧ fi.pathReadable = true)) ∧
    (∀ e, validateFile f fi = some e →
      zooTopoInit (some f) fi p = Except.error e ∧
      zooTopoInit (some f) fi p = zooTopoInit (some f) fi q) := by
  obtain ⟨pe, pr⟩ := fi
  cases pe with
  | false =>
    refine ⟨?_, ?_, ?_, ?_⟩
    · exact ⟨fun _ => rfl, fun _ => ⟨"GML file not found: " ++ f, rfl⟩⟩
    · constructor
      · rintro ⟨m, hm⟩
        exact PyError.noConfusion (Option.some.inj hm)
      · rintro ⟨h1, -⟩
        exact Bool.noConfusion h1
    · constructor
      · intro hm
        exact Option.noConfusion hm
      · rintro ⟨h1, -⟩
        exact Bool.noConfusion h1
    · intro e he
      have he2 : PyError.fileNotFoundError ("GML file not found: " ++ f) = e :=
        Option.some.inj he
      subst he2
      exact ⟨rfl, rfl⟩
  | true =>
    cases pr with
    | false =>
      refine ⟨?_, ?_, ?_, ?_⟩
      · constructor
        · rintro ⟨m, hm⟩
          exact PyError.noConfusion (Option.some.inj hm)
        · intro h1
          exact Bool.noConfusion h1
      · exact ⟨fun _ => ⟨rfl, rfl⟩, fun _ => ⟨"Cannot read GML file: " ++ f, rfl⟩⟩
      · constructor
        · intro hm
          exact Option.noConfusion hm
        · rintro ⟨-, h2⟩
          exact Bool.noConfusion h2
      · intro e he
        have he2 : PyError.permissionError ("Cannot read GML file: " ++ f) = e :=
          Option.some.inj he
        subst he2
        exact ⟨rfl, rfl⟩
    | true =>
      refine ⟨?_, ?_, ?_, ?_⟩
      · constructor
        · rintro ⟨m, hm⟩
          exact Option.noConfusion hm
        · intro h1
          exact Bool.noConfusion h1
      · constructor
        · rintro ⟨m, hm⟩
          exact Option.noConfusion hm
        · rintro ⟨-, h2⟩
          exact Bool.noConfusion h2
      · exact ⟨fun _ => ⟨rfl, rfl⟩, fun _ => rfl⟩
      · intro e he
        exact Option.noConfusion he

theorem claim8_witness :
    ∃ m, validateFile "net.gml" (FileInfo.mk false true) =
      some (PyError.fileNotFoundError m) :=
  (claim8_validate "net.gml" (FileInfo.mk false true)
    (Except.ok (Graph.mk [] [])) (Except.error "x")).1.mpr rfl

/-- C9: the loader stage raises the malformed-GML `ValueError` on any
parse failure and the empty-graph `ValueError` when |V| = 0, in both cases
before any backend command is emitted (the command trace is empty); for
the empty graph the constructor turns this into the wrapped
`RuntimeError` and `main` exits with code 1. -/
theorem claim9_loader_failures (m f : String) (es : List (String × String))
    (fi : FileInfo) (hE : fi.pathExists = true) (hR : fi.pathReadable = true) :
    buildRun (Except.error m) =
      ([], some (PyError.valueError ("Invalid GML file format: " ++ m))) ∧
    buildRun (Except.ok (Graph.mk [] es)) =
      ([], some (PyError.valueError "GML file contains no nodes")) ∧
    zooTopoInit (some f) fi (Except.ok (Graph.mk [] es)) =
      Except.error (PyError.runtimeError
        ("Failed to build topology from " ++ f ++ ": " ++
          "GML file contains no nodes")) ∧
    (mainFinish (some (PyError.runtimeError
        ("Failed to build topology from " ++ f ++ ": " ++
          "GML file contains no nodes")).toExc) false none).exitCode = 1 := by
  obtain ⟨pe, pr⟩ := fi
  cases pe with
  | false => exact Bool.noConfusion hE
  | true =>
    cases pr with
    | false => exact Bool.noConfusion hR
    | true => exact ⟨rfl, rfl, rfl, rfl⟩

theorem claim9_witness :
    buildRun (Except.ok (Graph.mk [] [])) =
      ([], some (PyError.valueError "GML file contains no nodes")) ∧
    zooTopoInit (some "topo.gml") (FileInfo.mk true true)
        (Except.ok (Graph.mk [] [])) =
      Except.error (PyError.runtimeError
        "Failed to build topology from topo.gml: GML file contains no nodes") ∧
    (mainFinish (some (PyError.runtimeError
        "Failed to build topology from topo.gml: GML file contains no nodes").toExc)
      false none).exitCode = 1 :=
  ⟨(claim9_loader_failures "x" "topo.gml" [] (FileInfo.mk true true) rfl rfl).2.1,
   (claim9_loader_failures "x" "topo.gml" [] (FileInfo.mk true true) rfl rfl).2.2.1,
   (claim9_loader_failures "x" "topo.gml" [] (FileInfo.mk true true) rfl rfl).2.2.2⟩

/-- C10: once validation has passed, every failure of the topology
constructor — including the parse-error and empty-graph `ValueError`s of
the loader — leaves `ZooTopo.__init__` as a `RuntimeError` whose message
names the GML path; such an error is handled by `main`'s RuntimeError
branch, never its ValueError branch, and exits with code 1. -/
theorem claim10_runtime_wrap (f : String) (fi : FileInfo)
    (p : Except String Graph) (hE : fi.pathExists = true)
    (hR : fi.pathReadable = true) (e : PyError)
    (h : zooTopoInit (some f) fi p = Except.error e) :
    (∃ m, e = PyError.runtimeError
      ("Failed to build topology from " ++ f ++ ": " ++ m)) ∧
    handledBy e.toExc = Branch.runtimeBranch ∧
    handledBy e.toExc ≠ Branch.valueBranch ∧
    (mainFinish (some e.toExc) false none).exitCode = 1 := by
  obtain ⟨pe, pr⟩ := fi
  cases pe with
  | false => exact Bool.noConfusion hE
  | true =>
    cases pr with
    | false => exact Bool.noConfusion hR
    | true =>
      unfold zooTopoInit at h
      rcases hb : buildRun p with ⟨cmds, oe⟩
      rw [hb] at h
      cases oe with
      | none => exact Except.noConfusion h
      | some e0 =>
        have he : PyError.runtimeError
            ("Failed to build topology from " ++ f ++ ": " ++ e0.msg) = e :=
          Except.error.inj h
        subst he
        refine ⟨⟨e0.msg, rfl⟩, rfl, ?_, rfl⟩
        intro hcontra
        exact Branch.noConfusion hcontra

theorem claim10_witness :
    (∃ m, PyError.runtimeError
        "Failed to build topology from t.gml: Invalid GML file format: oops" =
      PyError.runtimeError ("Failed to build topology from " ++ "t.gml" ++ ": " ++ m)) ∧
    handledBy (PyError.runtimeError
        "Failed to build topology from t.gml: Invalid GML file format: oops").toExc =
      Branch.runtimeBranch ∧
    handledBy (PyError.runtimeError
        "Failed to build topology from t.gml: Invalid GML file format: oops").toExc ≠
      Branch.valueBranch ∧
    (mainFinish (some (PyError.runtimeError
        "Failed to build topology from t.gml: Invalid GML file format: oops").toExc)
      false none).exitCode = 1 :=
  claim10_runtime_wrap "t.gml" (FileInfo.mk true true) (Except.error "oops") rfl rfl
    (PyError.runtimeError
      "Failed to build topology from t.gml: Invalid GML file format: oops")
    rfl
